import Mathlib

/-!
Shallow embedding of the genkit-interrupts agent core: the interruption
resolution loop (interruption_handler.go), the conversation completion loop
(conversation_loop_handler.go), and the pending-request payload decoding
(getQuestionInput), together with proofs of the specified properties.
-/

set_option maxHeartbeats 1000000

/-- Model of a Go error value, identified by its message string. -/
structure GoError where
  msg : String
deriving DecidableEq, Repr

mutual
/-- Model of a Go dynamic value of the kinds that can appear in a decoded
JSON tool-request input (part.ToolRequest.Input : any).  The constructor
`unserializable` stands for values such as channels or functions on which
json.Marshal fails. -/
inductive GoValue where
  | str (s : String)
  | num (n : Int)
  | bool (b : Bool)
  | null
  | unserializable
  | arr (elems : GoList)
  | map (fields : GoMap)
deriving DecidableEq, Repr
inductive GoList where
  | nil
  | cons (head : GoValue) (tail : GoList)
deriving DecidableEq, Repr
inductive GoMap where
  | nil
  | cons (key : String) (val : GoValue) (rest : GoMap)
deriving DecidableEq, Repr
end

mutual
/-- Whether json.Marshal succeeds on the value (fails only when the value
contains an unserializable component such as a channel or function). -/
def GoValue.marshalable : GoValue → Bool
  | .str _ => true
  | .num _ => true
  | .bool _ => true
  | .null => true
  | .unserializable => false
  | .arr es => es.marshalable
  | .map fs => fs.marshalable
def GoList.marshalable : GoList → Bool
  | .nil => true
  | .cons v vs => v.marshalable && vs.marshalable
def GoMap.marshalable : GoMap → Bool
  | .nil => true
  | .cons _ v fs => v.marshalable && fs.marshalable
end

/-- The name Go's %T verb prints for the dynamic type of the value, as used
in the "unexpected input type: %T" error of getQuestionInput.  JSON-decoded
numbers arrive as float64. -/
def GoValue.typeName : GoValue → String
  | .str _ => "string"
  | .num _ => "float64"
  | .bool _ => "bool"
  | .null => "<nil>"
  | .unserializable => "chan int"
  | .arr _ => "[]interface \x7b\x7d"
  | .map _ => "map[string]interface \x7b\x7d"

/-- Whether the value is a Go map[string]any, i.e. whether the type assertion
input.(map[string]any) in getQuestionInput succeeds. -/
def GoValue.isMap : GoValue → Bool
  | .map _ => true
  | _ => false

/-- First binding of the key in the field list (Go maps have unique keys, so
at most one binding exists). -/
def GoMap.lookupKey (key : String) : GoMap → Option GoValue
  | .nil => none
  | .cons k v rest => if k = key then some v else GoMap.lookupKey key rest

/-- Code point of the character, lower-cased over the ASCII range (the tags
involved, "question" and "choices", are ASCII). -/
def lowerCode (c : Char) : Nat :=
  if 65 ≤ c.toNat ∧ c.toNat ≤ 90 then c.toNat + 32 else c.toNat

/-- ASCII case-insensitive string comparison, modelling the case-insensitive
key matching of Go's encoding/json. -/
def eqFoldKey (a b : String) : Bool :=
  a.data.map lowerCode == b.data.map lowerCode

/-- First binding whose key matches the tag case-insensitively. -/
def GoMap.lookupKeyCI (tag : String) : GoMap → Option GoValue
  | .nil => none
  | .cons k v rest =>
    if eqFoldKey k tag then some v else GoMap.lookupKeyCI tag rest

/-- Go's encoding/json field matching for a struct field tagged with the
given JSON name: an exact key match wins, otherwise a case-insensitive match
is accepted. -/
def GoMap.lookupField (fs : GoMap) (tag : String) : Option GoValue :=
  match fs.lookupKey tag with
  | some v => some v
  | none => fs.lookupKeyCI tag

/-- QuestionInput contains a question to ask the user and optional multiple
choice answers (ask_question_tool.go). -/
structure QuestionInput where
  question : String
  choices : List String
deriving DecidableEq, Repr

/-- Error value wrapping a json.Marshal failure in getQuestionInput. -/
def marshalFailure : GoError := ⟨"failed to marshal input"⟩

/-- Error value wrapping a json.Unmarshal failure in getQuestionInput. -/
def unmarshalFailure : GoError := ⟨"failed to unmarshal input"⟩

/-- Error for an input that is not a map[string]any. -/
def badInputType (v : GoValue) : GoError :=
  ⟨"unexpected input type: " ++ v.typeName⟩

/-- json.Unmarshal of a JSON value into a Go string field: a missing field or
a JSON null leaves the zero value "", a string decodes to itself, anything
else is an UnmarshalTypeError. -/
def decodeStringField : Option GoValue → Except GoError String
  | none => .ok ""
  | some .null => .ok ""
  | some (.str s) => .ok s
  | some _ => .error unmarshalFailure

/-- json.Unmarshal of a JSON array into a Go []string: each element must be
a string (null leaves the zero value ""). -/
def decodeStringElems : GoList → Except GoError (List String)
  | .nil => .ok []
  | .cons (.str s) rest => (decodeStringElems rest).map (fun tl => s :: tl)
  | .cons .null rest => (decodeStringElems rest).map (fun tl => "" :: tl)
  | .cons _ _ => .error unmarshalFailure

/-- json.Unmarshal of a JSON value into the Choices []string field: missing
field or null leaves the zero value nil, an array decodes elementwise,
anything else is an UnmarshalTypeError. -/
def decodeChoicesField : Option GoValue → Except GoError (List String)
  | none => .ok []
  | some .null => .ok []
  | some (.arr es) => decodeStringElems es
  | some _ => .error unmarshalFailure

/-- getQuestionInput converts an arbitrary input into a QuestionInput
(interruption_handler.go lines 14-30): the input must be a map[string]any,
it is json.Marshal-ed (failing on unserializable values) and then
json.Unmarshal-ed into the QuestionInput struct shape. -/
def getQuestionInput : GoValue → Except GoError QuestionInput
  | .map fs =>
    if fs.marshalable then
      match decodeStringField (fs.lookupField "question"),
            decodeChoicesField (fs.lookupField "choices") with
      | .ok q, .ok cs => .ok ⟨q, cs⟩
      | .error e, _ => .error e
      | _, .error e => .error e
    else .error marshalFailure
  | v => .error (badInputType v)

example :
    getQuestionInput (.map (.cons "question" (.str "What gender?")
      (.cons "choices" (.arr (.cons (.str "Boy") (.cons (.str "Girl") .nil))) .nil)))
      = .ok ⟨"What gender?", ["Boy", "Girl"]⟩ := rfl

example : getQuestionInput (.str "not a map")
    = .error ⟨"unexpected input type: string"⟩ := rfl

example : getQuestionInput .null
    = .error ⟨"unexpected input type: <nil>"⟩ := rfl

example : getQuestionInput (.map .nil) = .ok ⟨"", []⟩ := rfl

example : getQuestionInput (.map (.cons "question" (.num 42) .nil))
    = .error unmarshalFailure := rfl

/-- Model of a genkit ai.Message, as carried opaquely by WithMessages and
History(); the core never inspects messages, so the fields are abstract. -/
structure Message where
  role : String
  content : String
deriving DecidableEq, Repr

/-- Model of one interrupt part of a suspended response, as returned by
response.Interrupts(): a tool request whose Input payload the handler
decodes.  The ref identifies the originating request. -/
structure InterruptPart where
  ref : String
  toolName : String
  input : GoValue
deriving DecidableEq, Repr

/-- Model of the tool-response part produced by askQuestion.Respond(part,
answer, nil): the answer output bound to the originating interrupt part. -/
structure AnswerPart where
  request : InterruptPart
  output : String
deriving DecidableEq, Repr

/-- Model of a registered genkit tool, identified by its name. -/
structure Tool where
  name : String
deriving DecidableEq, Repr

/-- askQuestion.Respond(part, any(answer), nil): builds the tool-response
part answering the given interrupt part. -/
def Tool.respond (_t : Tool) (p : InterruptPart) (answer : String) : AnswerPart :=
  ⟨p, answer⟩

/-- Model of a genkit ai.ModelResponse through the observers the core uses:
FinishReason, Interrupts(), History() and Text(). -/
structure ModelResponse where
  finishReason : String
  interrupts : List InterruptPart
  history : List Message
  text : String
deriving DecidableEq, Repr

/-- Argument pair handed to ai.WithPrompt by the conversation loop.  The Go
call WithPrompt(cv.interruptionHandler.UserInteraction(ctx, ...)) forwards
BOTH return values of UserInteraction: the answer text, and the error value
bound to the variadic format-argument slot. -/
structure PromptArg where
  text : String
  formatArg : Option GoError
deriving DecidableEq, Repr

/-- The options of one Generate call: WithMessages, WithTools,
WithToolResponses and (for the conversation loop) WithPrompt. -/
structure GenCall where
  messages : List Message
  tools : List Tool
  toolResponses : List AnswerPart
  prompt : Option PromptArg
deriving DecidableEq, Repr

instance {ε α : Type} [DecidableEq ε] [DecidableEq α] : DecidableEq (Except ε α) :=
  fun x y =>
    match x, y with
    | .ok a, .ok b =>
      if h : a = b then isTrue (h ▸ rfl) else isFalse (fun hh => h (Except.ok.inj hh))
    | .error a, .error b =>
      if h : a = b then isTrue (h ▸ rfl) else isFalse (fun hh => h (Except.error.inj hh))
    | .ok _, .error _ => isFalse (fun hh => Except.noConfusion hh)
    | .error _, .ok _ => isFalse (fun hh => Except.noConfusion hh)

/-- One observable interaction with a collaborator, in execution order:
a UserInteraction call, a Generate call, or a GenerateBool evaluation. -/
inductive Event where
  | interact (question : QuestionInput) (answer : String) (errOut : Option GoError)
  | generate (call : GenCall) (result : Except GoError ModelResponse)
  | evalBool (prompt : String) (history : List Message) (result : Except GoError Bool)
deriving DecidableEq, Repr

/-- Whether the event is a UserInteraction call. -/
def Event.isInteract : Event → Bool
  | .interact _ _ _ => true
  | _ => false

/-- Whether the event is a Generate call. -/
def Event.isGenerate : Event → Bool
  | .generate _ _ => true
  | _ => false

/-- Whether the event is a GenerateBool evaluation. -/
def Event.isEvalBool : Event → Bool
  | .evalBool _ _ _ => true
  | _ => false

/-- Whether the event is a Generate call issued by the conversation loop
itself (those carry a WithPrompt option; resumption calls carry none). -/
def Event.isSeededGenerate : Event → Bool
  | .generate call _ => call.prompt.isSome
  | _ => false

/-- Instrumentation state threaded through a run: how many times each
collaborator has been called, and the ordered trace of events. -/
structure St where
  uiCalls : Nat
  genCalls : Nat
  boolCalls : Nat
  trace : List Event
deriving DecidableEq, Repr

/-- Logical clock: total number of collaborator calls made so far.  The
cooperative cancellation signal is sampled against this clock. -/
def St.clock (st : St) : Nat := st.uiCalls + st.genCalls + st.boolCalls

/-- Initial instrumentation state. -/
def St.init : St := ⟨0, 0, 0, []⟩

/-- Record one UserInteraction call. -/
def St.recordInteract (st : St) (q : QuestionInput) (ans : String)
    (errOut : Option GoError) : St :=
  { st with uiCalls := st.uiCalls + 1, trace := st.trace ++ [.interact q ans errOut] }

/-- Record one Generate call. -/
def St.recordGenerate (st : St) (call : GenCall)
    (res : Except GoError ModelResponse) : St :=
  { st with genCalls := st.genCalls + 1, trace := st.trace ++ [.generate call res] }

/-- Record one GenerateBool evaluation. -/
def St.recordBool (st : St) (p : String) (h : List Message)
    (res : Except GoError Bool) : St :=
  { st with boolCalls := st.boolCalls + 1, trace := st.trace ++ [.evalBool p h res] }

/-- Environment of external collaborators, mirroring the Generator and
UserInteraction contracts (and the index-based mock of run_agent_test.go):
tool lookup by name; the user-interaction function giving, for the n-th
interaction call, the (answer, error) pair of Go's two return values; the
Generate result of the n-th generation call; the GenerateBool result of the
n-th boolean evaluation; and the cooperative cancellation signal
(ctx.Done()) sampled at a given clock tick. -/
structure Env where
  tools : String → Option Tool
  ui : Nat → QuestionInput → String × Option GoError
  gen : Nat → GenCall → Except GoError ModelResponse
  genBool : Nat → String → List Message → Except GoError Bool
  ctxDone : Nat → Bool

/-- The error returned by ctx.Err() once the context is cancelled. -/
def cancelledErr : GoError := ⟨"context canceled"⟩

/-- errors.New("askQuestion tool not found"). -/
def askQuestionNotFound : GoError := ⟨"askQuestion tool not found"⟩

/-- Outcome of a handler run: the Go (response, error) pair, together with
the instrumentation state; spent marks fuel exhaustion of the model (the Go
loop would still be running). -/
inductive Outcome where
  | ok (st : St) (response : ModelResponse)
  | err (st : St) (e : GoError)
  | spent (st : St)
deriving DecidableEq, Repr

/-- Instrumentation state carried by the outcome. -/
def Outcome.st : Outcome → St
  | .ok st _ => st
  | .err st _ => st
  | .spent st => st

/-- The inner for-loop of InterruptionHandler.handleResponse (lines 57-78):
for each interrupt part, first sample cancellation, then decode the payload
with getQuestionInput, then call UserInteraction, and append the Respond
part to the accumulated answers; any failure aborts with the error and
discards the accumulated answers. -/
def resolveInterrupts (env : Env) (ask : Tool) :
    St → List InterruptPart → List AnswerPart →
    Except (St × GoError) (St × List AnswerPart)
  | st, [], answers => .ok (st, answers)
  | st, p :: ps, answers =>
    if env.ctxDone st.clock then .error (st, cancelledErr)
    else
      match getQuestionInput p.input with
      | .error e => .error (st, e)
      | .ok q =>
        let ans := (env.ui st.uiCalls q).1
        let errOut := (env.ui st.uiCalls q).2
        let st1 := st.recordInteract q ans errOut
        match errOut with
        | some e => .error (st1, e)
        | none => resolveInterrupts env ask st1 ps (answers ++ [ask.respond p ans])

/-- The while-loop of InterruptionHandler.handleResponse (lines 50-89):
while the response is suspended (FinishReason "interrupted"), sample
cancellation, resolve every interrupt, and issue one resumption Generate
call carrying the response's history, the askQuestion tool and all answers;
fuel bounds the number of rounds modelled. -/
def ihLoop (env : Env) (ask : Tool) : Nat → St → ModelResponse → Outcome
  | fuel, st, r =>
    if r.finishReason = "interrupted" then
      match fuel with
      | 0 => .spent st
      | fuel + 1 =>
        if env.ctxDone st.clock then .err st cancelledErr
        else
          match resolveInterrupts env ask st r.interrupts [] with
          | .error (st1, e) => .err st1 e
          | .ok (st1, answers) =>
            let call : GenCall := ⟨r.history, [ask], answers, none⟩
            let res := env.gen st1.genCalls call
            let st2 := st1.recordGenerate call res
            match res with
            | .error e => .err st2 e
            | .ok r2 => ihLoop env ask fuel st2 r2
    else .ok st r

/-- InterruptionHandler.handleResponse (interruption_handler.go lines
43-91): look up the askQuestion tool, failing immediately when absent, then
run the resolution loop. -/
def InterruptionHandler.handleResponse (env : Env) (fuel : Nat) (st : St)
    (r : ModelResponse) : Outcome :=
  match env.tools "askQuestion" with
  | none => .err st askQuestionNotFound
  | some ask => ihLoop env ask fuel st r

/-- The while-loop of ConversationLoopHandler.handleResponse (lines 23-50):
resolve interrupts via the interruption handler, evaluate the completion
verdict with GenerateBool, stop when finished; otherwise call
UserInteraction on the resolved response's text and issue one seeded
Generate call whose WithPrompt receives both of UserInteraction's return
values (the error value is never checked). -/
def clLoop (env : Env) (ask : Tool) (validationPrompt : String) (fuelI : Nat) :
    Nat → St → ModelResponse → Outcome
  | 0, st, _ => .spent st
  | fuel + 1, st, r =>
    match InterruptionHandler.handleResponse env fuelI st r with
    | .err st1 e => .err st1 e
    | .spent st1 => .spent st1
    | .ok st1 r1 =>
      let vres := env.genBool st1.boolCalls validationPrompt r1.history
      let st2 := st1.recordBool validationPrompt r1.history vres
      match vres with
      | .error e => .err st2 e
      | .ok isConversationFinished =>
        if isConversationFinished then .ok st2 r1
        else
          let ans := (env.ui st2.uiCalls ⟨r1.text, []⟩).1
          let errOut := (env.ui st2.uiCalls ⟨r1.text, []⟩).2
          let st3 := st2.recordInteract ⟨r1.text, []⟩ ans errOut
          let call : GenCall := ⟨r1.history, [ask], [], some ⟨ans, errOut⟩⟩
          let gres := env.gen st3.genCalls call
          let st4 := st3.recordGenerate call gres
          match gres with
          | .error e => .err st4 e
          | .ok r2 => clLoop env ask validationPrompt fuelI fuel st4 r2

/-- ConversationLoopHandler.handleResponse (conversation_loop_handler.go
lines 16-52): look up the askQuestion tool, failing immediately when
absent, then run the completion loop (as wired in main.go and the tests,
the nested interruption handler shares the same generator and
user-interaction function, here the shared environment). -/
def ConversationLoopHandler.handleResponse (env : Env) (validationPrompt : String)
    (fuelO fuelI : Nat) (st : St) (r : ModelResponse) : Outcome :=
  match env.tools "askQuestion" with
  | none => .err st askQuestionNotFound
  | some ask => clLoop env ask validationPrompt fuelI fuelO st r

/-- A run of pending requests is clean when, starting at interaction index u
and clock c, every request in turn is reached with the context not yet
cancelled, its payload decodes, and its UserInteraction call returns no
error. -/
def cleanRun (env : Env) : Nat → Nat → List InterruptPart → Bool
  | _, _, [] => true
  | u, c, p :: ps =>
    !env.ctxDone c &&
      (match getQuestionInput p.input with
       | .error _ => false
       | .ok q => (env.ui u q).2.isNone && cleanRun env (u + 1) (c + 1) ps)

/-- The interaction events a clean run over the requests produces, starting
at interaction index u: one per request, in request order. -/
def roundEvents (env : Env) : Nat → List InterruptPart → List Event
  | _, [] => []
  | u, p :: ps =>
    match getQuestionInput p.input with
    | .error _ => []
    | .ok q =>
      .interact q (env.ui u q).1 (env.ui u q).2 :: roundEvents env (u + 1) ps

/-- The answer parts a clean run over the requests accumulates, starting at
interaction index u: each one built by askQuestion.Respond from the
interaction answer for its originating request. -/
def roundAnswers (env : Env) (ask : Tool) : Nat → List InterruptPart → List AnswerPart
  | _, [] => []
  | u, p :: ps =>
    match getQuestionInput p.input with
    | .error _ => []
    | .ok q => ask.respond p (env.ui u q).1 :: roundAnswers env ask (u + 1) ps

/-- The instrumentation state after a clean run over the requests. -/
def stAfter (env : Env) (st : St) (ps : List InterruptPart) : St :=
  { st with uiCalls := st.uiCalls + ps.length,
            trace := st.trace ++ roundEvents env st.uiCalls ps }

/-- The instrumentation state inside either constructor of a
resolveInterrupts result. -/
def resSt : Except (St × GoError) (St × List AnswerPart) → St
  | .ok (st, _) => st
  | .error (st, _) => st

/-- Error value used by fixture interaction functions that fail. -/
def uiFailure : GoError := ⟨"user interaction failure"⟩

/-- Fixture: the registered askQuestion tool. -/
def askTool : Tool := ⟨"askQuestion"⟩

/-- Fixture: one history message. -/
def msg1 : Message := ⟨"user", "help with Christmas presents"⟩

/-- Fixture: a well-formed pending-request payload. -/
def genderInput : GoValue :=
  .map (.cons "question" (.str "What gender are the children?")
    (.cons "choices" (.arr (.cons (.str "Boy") (.cons (.str "Girl")
      (.cons (.str "Both") .nil)))) .nil))

/-- Fixture: a second well-formed pending-request payload. -/
def agesInput : GoValue :=
  .map (.cons "question" (.str "What are their ages?")
    (.cons "choices" (.arr (.cons (.str "8-10") (.cons (.str "11-13") .nil))) .nil))

/-- Fixture: pending request for the gender question. -/
def pGender : InterruptPart := ⟨"r1", "askQuestion", genderInput⟩

/-- Fixture: pending request for the ages question. -/
def pAges : InterruptPart := ⟨"r2", "askQuestion", agesInput⟩

/-- Fixture: pending request whose payload is not a map. -/
def pBad : InterruptPart := ⟨"r3", "askQuestion", .str "oops"⟩

/-- Fixture: suspended response with two pending requests. -/
def rTwo : ModelResponse := ⟨"interrupted", [pGender, pAges], [msg1], ""⟩

/-- Fixture: suspended response whose second pending request is malformed. -/
def rBad : ModelResponse := ⟨"interrupted", [pGender, pBad], [msg1], ""⟩

/-- Fixture: finished response. -/
def rDone : ModelResponse :=
  ⟨"stop", [], [msg1], "Based on your answer, I recommend LEGO sets."⟩

/-- Fixture: a second finished response, produced by a seeded call. -/
def rNext : ModelResponse := ⟨"stop", [], [msg1], "Final Answer"⟩

/-- Fixture environment: askQuestion registered, interactions answer "Boy"
then "8 and 11" without error, every Generate call yields the finished
response, the completion verdict alternates false then true, no
cancellation. -/
def envHappy : Env where
  tools := fun n => if n = "askQuestion" then some askTool else none
  ui := fun n _ => (if n = 0 then "Boy" else "8 and 11", none)
  gen := fun n _ => if n = 0 then .ok rDone else .ok rNext
  genBool := fun n _ _ => .ok (1 ≤ n)
  ctxDone := fun _ => false

/-- Fixture environment: no tools registered at all. -/
def envNoTool : Env where
  tools := fun _ => none
  ui := fun _ _ => ("", none)
  gen := fun _ _ => .error ⟨"no more mock responses available"⟩
  genBool := fun _ _ _ => .ok true
  ctxDone := fun _ => false

/-- Fixture environment: like envHappy but the context is cancelled from
clock tick 1 onward (after the first collaborator call). -/
def envCancelAt1 : Env where
  tools := fun n => if n = "askQuestion" then some askTool else none
  ui := fun n _ => (if n = 0 then "Boy" else "8 and 11", none)
  gen := fun n _ => if n = 0 then .ok rDone else .ok rNext
  genBool := fun n _ _ => .ok (1 ≤ n)
  ctxDone := fun t => 1 ≤ t

/-- Fixture environment: askQuestion registered, every interaction fails
with uiFailure, every Generate call yields the finished rNext, the
completion verdict is false on the first evaluation and true afterwards,
no cancellation. -/
def envUIErr : Env where
  tools := fun n => if n = "askQuestion" then some askTool else none
  ui := fun _ _ => ("", some uiFailure)
  gen := fun _ _ => .ok rNext
  genBool := fun n _ _ => .ok (1 ≤ n)
  ctxDone := fun _ => false

/-- Fixture environment: askQuestion registered, completion verdict true on
every evaluation, no cancellation. -/
def envDoneNow : Env where
  tools := fun n => if n = "askQuestion" then some askTool else none
  ui := fun _ _ => ("User Answer", none)
  gen := fun _ _ => .ok rNext
  genBool := fun _ _ _ => .ok true
  ctxDone := fun _ => false

/-- Fixture: final instrumentation state of the envHappy completion-loop
run with verdicts false then true. -/
def c5RunSt : St :=
  ⟨1, 1, 2,
   [.evalBool "Is finished?" [msg1] (.ok false),
    .interact ⟨rDone.text, []⟩ "Boy" none,
    .generate ⟨[msg1], [askTool], [], some ⟨"Boy", none⟩⟩ (.ok rDone),
    .evalBool "Is finished?" [msg1] (.ok true)]⟩

/-- Fixture: final instrumentation state of the envUIErr completion-loop
run, in which the interaction error is swallowed into the next prompt. -/
def c3RunSt : St :=
  ⟨1, 1, 2,
   [.evalBool "Is finished?" [msg1] (.ok false),
    .interact ⟨"Final Answer", []⟩ "" (some uiFailure),
    .generate ⟨[msg1], [askTool], [], some ⟨"", some uiFailure⟩⟩ (.ok rNext),
    .evalBool "Is finished?" [msg1] (.ok true)]⟩

lemma stAfter_nil (env : Env) (st : St) : stAfter env st [] = st := by
  simp [stAfter, roundEvents]

lemma stAfter_cons (env : Env) (st : St) (p : InterruptPart) (ps : List InterruptPart)
    (q : QuestionInput) (hq : getQuestionInput p.input = .ok q) :
    stAfter env st (p :: ps) =
      stAfter env (st.recordInteract q (env.ui st.uiCalls q).1 (env.ui st.uiCalls q).2) ps := by
  simp only [stAfter, St.recordInteract, roundEvents, hq, List.length_cons]
  congr 1
  · omega
  · simp

lemma stAfter_genCalls (env : Env) (st : St) (ps : List InterruptPart) :
    (stAfter env st ps).genCalls = st.genCalls := rfl

lemma stAfter_boolCalls (env : Env) (st : St) (ps : List InterruptPart) :
    (stAfter env st ps).boolCalls = st.boolCalls := rfl

lemma stAfter_uiCalls (env : Env) (st : St) (ps : List InterruptPart) :
    (stAfter env st ps).uiCalls = st.uiCalls + ps.length := rfl

lemma stAfter_clock (env : Env) (st : St) (ps : List InterruptPart) :
    (stAfter env st ps).clock = st.clock + ps.length := by
  simp [St.clock, stAfter]; omega

lemma recordInteract_clock (st : St) (q : QuestionInput) (a : String)
    (e : Option GoError) : (st.recordInteract q a e).clock = st.clock + 1 := by
  simp [St.clock, St.recordInteract]; omega

lemma resolveInterrupts_clean (env : Env) (ask : Tool) :
    ∀ (xs ys : List InterruptPart) (st : St) (acc : List AnswerPart),
    cleanRun env st.uiCalls st.clock xs = true →
    resolveInterrupts env ask st (xs ++ ys) acc =
      resolveInterrupts env ask (stAfter env st xs) ys
        (acc ++ roundAnswers env ask st.uiCalls xs) := by
  intro xs
  induction xs with
  | nil =>
    intro ys st acc h
    simp [stAfter_nil, roundAnswers]
  | cons p rest ih =>
    intro ys st acc h
    simp only [cleanRun, Bool.and_eq_true, Bool.not_eq_true'] at h
    obtain ⟨hc, h2⟩ := h
    cases hq : getQuestionInput p.input with
    | error e => rw [hq] at h2; exact absurd h2 (by simp)
    | ok q =>
      rw [hq] at h2
      simp only [Bool.and_eq_true, Option.isNone_iff_eq_none] at h2
      obtain ⟨hui, hrest⟩ := h2
      have hclean1 : cleanRun env
          (st.recordInteract q (env.ui st.uiCalls q).1 (env.ui st.uiCalls q).2).uiCalls
          (st.recordInteract q (env.ui st.uiCalls q).1 (env.ui st.uiCalls q).2).clock
          rest = true := by
        rw [recordInteract_clock]
        exact hrest
      have step : resolveInterrupts env ask st ((p :: rest) ++ ys) acc =
          resolveInterrupts env ask
            (st.recordInteract q (env.ui st.uiCalls q).1 (env.ui st.uiCalls q).2)
            (rest ++ ys) (acc ++ [ask.respond p (env.ui st.uiCalls q).1]) := by
        simp [resolveInterrupts, hc, hq, hui]
      rw [step, ih _ _ _ hclean1, stAfter_cons env st p rest q hq]
      simp [roundAnswers, hq, St.recordInteract]

lemma resolveInterrupts_clean_all (env : Env) (ask : Tool) (st : St)
    (ps : List InterruptPart) (h : cleanRun env st.uiCalls st.clock ps = true) :
    resolveInterrupts env ask st ps [] =
      .ok (stAfter env st ps, roundAnswers env ask st.uiCalls ps) := by
  have step := resolveInterrupts_clean env ask ps [] st [] h
  simpa [resolveInterrupts] using step

lemma interact_not_eval_seeded (ev : Event) (h : ev.isInteract = true) :
    (!ev.isEvalBool && !ev.isSeededGenerate) = true := by
  cases ev <;> simp_all [Event.isInteract, Event.isEvalBool, Event.isSeededGenerate]

lemma resolveInterrupts_ext (env : Env) (ask : Tool) :
    ∀ (ps : List InterruptPart) (st : St) (acc : List AnswerPart),
    ∃ ext : List Event,
      (resSt (resolveInterrupts env ask st ps acc)).trace = st.trace ++ ext ∧
      ext.all Event.isInteract = true ∧
      (resSt (resolveInterrupts env ask st ps acc)).genCalls = st.genCalls ∧
      (resSt (resolveInterrupts env ask st ps acc)).boolCalls = st.boolCalls := by
  intro ps
  induction ps with
  | nil =>
    intro st acc
    exact ⟨[], by simp [resolveInterrupts, resSt]⟩
  | cons p rest ih =>
    intro st acc
    by_cases hc : env.ctxDone st.clock = true
    · exact ⟨[], by simp [resolveInterrupts, hc, resSt]⟩
    · rw [Bool.not_eq_true] at hc
      cases hq : getQuestionInput p.input with
      | error e =>
        exact ⟨[], by simp [resolveInterrupts, hc, hq, resSt]⟩
      | ok q =>
        cases hui : (env.ui st.uiCalls q).2 with
        | some e =>
          refine ⟨[.interact q (env.ui st.uiCalls q).1 (some e)], ?_, ?_, ?_, ?_⟩ <;>
            simp [resolveInterrupts, hc, hq, hui, resSt, St.recordInteract, Event.isInteract]
        | none =>
          obtain ⟨ext, h1, h2, h3, h4⟩ :=
            ih (st.recordInteract q (env.ui st.uiCalls q).1 none)
              (acc ++ [ask.respond p (env.ui st.uiCalls q).1])
          simp only [St.recordInteract] at h1 h3 h4
          refine ⟨.interact q (env.ui st.uiCalls q).1 none :: ext, ?_, ?_, ?_, ?_⟩
          · simp [resolveInterrupts, hc, hq, hui, h1, St.recordInteract]
          · simp [Event.isInteract, h2]
          · simp [resolveInterrupts, hc, hq, hui, h3, St.recordInteract]
          · simp [resolveInterrupts, hc, hq, hui, h4, St.recordInteract]

lemma all_not_eval_seeded_of_all_interact (ext : List Event)
    (h : ext.all Event.isInteract = true) :
    ext.all (fun e => !e.isEvalBool && !e.isSeededGenerate) = true := by
  rw [List.all_eq_true] at h ⊢
  intro ev hev
  exact interact_not_eval_seeded ev (h ev hev)

lemma ihLoop_ext (env : Env) (ask : Tool) :
    ∀ (fuel : Nat) (st : St) (r : ModelResponse),
    ∃ ext : List Event,
      (ihLoop env ask fuel st r).st.trace = st.trace ++ ext ∧
      ext.all (fun e => !e.isEvalBool && !e.isSeededGenerate) = true ∧
      (ihLoop env ask fuel st r).st.boolCalls = st.boolCalls := by
  intro fuel
  induction fuel with
  | zero =>
    intro st r
    by_cases hr : r.finishReason = "interrupted" <;>
      exact ⟨[], by simp [ihLoop, hr, Outcome.st]⟩
  | succ fuel ih =>
    intro st r
    by_cases hr : r.finishReason = "interrupted"
    · by_cases hc : env.ctxDone st.clock = true
      · exact ⟨[], by simp [ihLoop, hr, hc, Outcome.st]⟩
      · rw [Bool.not_eq_true] at hc
        obtain ⟨ext0, e1, e2, e3, e4⟩ := resolveInterrupts_ext env ask r.interrupts st []
        cases hres : resolveInterrupts env ask st r.interrupts [] with
        | error se =>
          obtain ⟨st1, e⟩ := se
          simp only [hres, resSt] at e1 e4
          refine ⟨ext0, ?_, all_not_eval_seeded_of_all_interact ext0 e2, ?_⟩ <;>
            simp [ihLoop, hr, hc, hres, Outcome.st, e1, e4]
        | ok sa =>
          obtain ⟨st1, answers⟩ := sa
          simp only [hres, resSt] at e1 e4
          cases hgen : env.gen st1.genCalls ⟨r.history, [ask], answers, none⟩ with
          | error e =>
            refine ⟨ext0 ++ [.generate ⟨r.history, [ask], answers, none⟩ (.error e)], ?_, ?_, ?_⟩
            · simp [ihLoop, hr, hc, hres, hgen, Outcome.st, St.recordGenerate, e1]
            · rw [List.all_append, Bool.and_eq_true]
              exact ⟨all_not_eval_seeded_of_all_interact ext0 e2, rfl⟩
            · simp [ihLoop, hr, hc, hres, hgen, Outcome.st, St.recordGenerate, e4]
          | ok r2 =>
            obtain ⟨ext1, f1, f2, f3⟩ :=
              ih (st1.recordGenerate ⟨r.history, [ask], answers, none⟩ (.ok r2)) r2
            have hstep : ihLoop env ask (fuel + 1) st r =
                ihLoop env ask fuel
                  (st1.recordGenerate ⟨r.history, [ask], answers, none⟩ (.ok r2)) r2 := by
              simp [ihLoop, hr, hc, hres, hgen]
            refine ⟨ext0 ++ [.generate ⟨r.history, [ask], answers, none⟩ (.ok r2)] ++ ext1,
              ?_, ?_, ?_⟩
            · rw [hstep, f1, St.recordGenerate]
              simp [e1]
            · rw [List.all_append, List.all_append, Bool.and_eq_true, Bool.and_eq_true]
              exact ⟨⟨all_not_eval_seeded_of_all_interact ext0 e2, rfl⟩, f2⟩
            · rw [hstep, f3, St.recordGenerate]
              simpa using e4
    · exact ⟨[], by simp [ihLoop, hr, Outcome.st]⟩

lemma handleResponse_ext (env : Env) (fuel : Nat) (st : St) (r : ModelResponse) :
    ∃ ext : List Event,
      (InterruptionHandler.handleResponse env fuel st r).st.trace = st.trace ++ ext ∧
      ext.all (fun e => !e.isEvalBool && !e.isSeededGenerate) = true ∧
      (InterruptionHandler.handleResponse env fuel st r).st.boolCalls = st.boolCalls := by
  cases hlk : env.tools "askQuestion" with
  | none => exact ⟨[], by simp [InterruptionHandler.handleResponse, hlk, Outcome.st]⟩
  | some ask =>
    obtain ⟨ext, h1, h2, h3⟩ := ihLoop_ext env ask fuel st r
    exact ⟨ext, by simpa [InterruptionHandler.handleResponse, hlk] using h1, h2,
      by simpa [InterruptionHandler.handleResponse, hlk] using h3⟩

lemma clLoop_ext (env : Env) (ask : Tool) (vp : String) (fuelI : Nat) :
    ∀ (fuel : Nat) (st : St) (r : ModelResponse),
    ∃ ext : List Event,
      (clLoop env ask vp fuelI fuel st r).st.trace = st.trace ++ ext := by
  intro fuel
  induction fuel with
  | zero =>
    intro st r
    exact ⟨[], by simp [clLoop, Outcome.st]⟩
  | succ fuel ih =>
    intro st r
    obtain ⟨ext0, g1, _, _⟩ := handleResponse_ext env fuelI st r
    cases hih : InterruptionHandler.handleResponse env fuelI st r with
    | err st1 e =>
      simp only [hih, Outcome.st] at g1
      exact ⟨ext0, by simp [clLoop, hih, Outcome.st, g1]⟩
    | spent st1 =>
      simp only [hih, Outcome.st] at g1
      exact ⟨ext0, by simp [clLoop, hih, Outcome.st, g1]⟩
    | ok st1 r1 =>
      simp only [hih, Outcome.st] at g1
      cases hb : env.genBool st1.boolCalls vp r1.history with
      | error e =>
        refine ⟨ext0 ++ [.evalBool vp r1.history (.error e)], ?_⟩
        simp [clLoop, hih, hb, Outcome.st, St.recordBool, g1]
      | ok b =>
        by_cases hfin : b = true
        · subst hfin
          refine ⟨ext0 ++ [.evalBool vp r1.history (.ok true)], ?_⟩
          simp [clLoop, hih, hb, Outcome.st, St.recordBool, g1]
        · rw [Bool.not_eq_true] at hfin
          subst hfin
          cases hgen : env.gen st1.genCalls
              ⟨r1.history, [ask], [], some ⟨(env.ui st1.uiCalls ⟨r1.text, []⟩).1,
                (env.ui st1.uiCalls ⟨r1.text, []⟩).2⟩⟩ with
          | error e =>
            refine ⟨ext0 ++ [.evalBool vp r1.history (.ok false),
              .interact ⟨r1.text, []⟩ (env.ui st1.uiCalls ⟨r1.text, []⟩).1
                (env.ui st1.uiCalls ⟨r1.text, []⟩).2,
              .generate ⟨r1.history, [ask], [], some ⟨(env.ui st1.uiCalls ⟨r1.text, []⟩).1,
                (env.ui st1.uiCalls ⟨r1.text, []⟩).2⟩⟩ (.error e)], ?_⟩
            simp [clLoop, hih, hb, hgen, Outcome.st, St.recordBool, St.recordInteract,
              St.recordGenerate, g1]
          | ok r2 =>
            obtain ⟨ext1, f1⟩ := ih
              ⟨st1.uiCalls + 1, st1.genCalls + 1, st1.boolCalls + 1,
               st1.trace ++ [.evalBool vp r1.history (.ok false),
                 .interact ⟨r1.text, []⟩ (env.ui st1.uiCalls ⟨r1.text, []⟩).1
                   (env.ui st1.uiCalls ⟨r1.text, []⟩).2,
                 .generate ⟨r1.history, [ask], [], some ⟨(env.ui st1.uiCalls ⟨r1.text, []⟩).1,
                   (env.ui st1.uiCalls ⟨r1.text, []⟩).2⟩⟩ (.ok r2)]⟩ r2
            have hstep : clLoop env ask vp fuelI (fuel + 1) st r =
                clLoop env ask vp fuelI fuel
                  ⟨st1.uiCalls + 1, st1.genCalls + 1, st1.boolCalls + 1,
                   st1.trace ++ [.evalBool vp r1.history (.ok false),
                     .interact ⟨r1.text, []⟩ (env.ui st1.uiCalls ⟨r1.text, []⟩).1
                       (env.ui st1.uiCalls ⟨r1.text, []⟩).2,
                     .generate ⟨r1.history, [ask], [], some ⟨(env.ui st1.uiCalls ⟨r1.text, []⟩).1,
                       (env.ui st1.uiCalls ⟨r1.text, []⟩).2⟩⟩ (.ok r2)]⟩ r2 := by
              simp [clLoop, hih, hb, hgen, St.recordBool, St.recordInteract, St.recordGenerate]
            refine ⟨ext0 ++ [.evalBool vp r1.history (.ok false),
              .interact ⟨r1.text, []⟩ (env.ui st1.uiCalls ⟨r1.text, []⟩).1
                (env.ui st1.uiCalls ⟨r1.text, []⟩).2,
              .generate ⟨r1.history, [ask], [], some ⟨(env.ui st1.uiCalls ⟨r1.text, []⟩).1,
                (env.ui st1.uiCalls ⟨r1.text, []⟩).2⟩⟩ (.ok r2)] ++ ext1, ?_⟩
            rw [hstep, f1]
            simp [g1]

lemma roundEvents_length (env : Env) :
    ∀ (ps : List InterruptPart) (u c : Nat), cleanRun env u c ps = true →
    (roundEvents env u ps).length = ps.length := by
  intro ps
  induction ps with
  | nil => intro u c _; simp [roundEvents]
  | cons p rest ih =>
    intro u c h
    simp only [cleanRun, Bool.and_eq_true, Bool.not_eq_true'] at h
    obtain ⟨_, h2⟩ := h
    cases hq : getQuestionInput p.input with
    | error e => rw [hq] at h2; exact absurd h2 (by simp)
    | ok q =>
      rw [hq] at h2
      simp only [Bool.and_eq_true, Option.isNone_iff_eq_none] at h2
      simp [roundEvents, hq, ih (u + 1) (c + 1) h2.2]

lemma roundAnswers_length (env : Env) (ask : Tool) :
    ∀ (ps : List InterruptPart) (u c : Nat), cleanRun env u c ps = true →
    (roundAnswers env ask u ps).length = ps.length := by
  intro ps
  induction ps with
  | nil => intro u c _; simp [roundAnswers]
  | cons p rest ih =>
    intro u c h
    simp only [cleanRun, Bool.and_eq_true, Bool.not_eq_true'] at h
    obtain ⟨_, h2⟩ := h
    cases hq : getQuestionInput p.input with
    | error e => rw [hq] at h2; exact absurd h2 (by simp)
    | ok q =>
      rw [hq] at h2
      simp only [Bool.and_eq_true, Option.isNone_iff_eq_none] at h2
      simp [roundAnswers, hq, ih (u + 1) (c + 1) h2.2]

lemma roundEvents_all_interact (env : Env) :
    ∀ (ps : List InterruptPart) (u : Nat),
    (roundEvents env u ps).all Event.isInteract = true := by
  intro ps
  induction ps with
  | nil => intro u; simp [roundEvents]
  | cons p rest ih =>
    intro u
    cases hq : getQuestionInput p.input with
    | error e => simp [roundEvents, hq]
    | ok q => simp [roundEvents, hq, Event.isInteract, ih (u + 1)]

lemma round_pointwise (env : Env) (ask : Tool) :
    ∀ (ps : List InterruptPart) (u c i : Nat) (p : InterruptPart),
    cleanRun env u c ps = true → ps[i]? = some p →
    ∃ q, getQuestionInput p.input = .ok q ∧
      (roundEvents env u ps)[i]? = some (.interact q (env.ui (u + i) q).1 none) ∧
      (roundAnswers env ask u ps)[i]? = some (ask.respond p (env.ui (u + i) q).1) := by
  intro ps
  induction ps with
  | nil => intro u c i p _ hp; simp at hp
  | cons p0 rest ih =>
    intro u c i p h hp
    simp only [cleanRun, Bool.and_eq_true, Bool.not_eq_true'] at h
    obtain ⟨_, h2⟩ := h
    cases hq : getQuestionInput p0.input with
    | error e => rw [hq] at h2; exact absurd h2 (by simp)
    | ok q0 =>
      rw [hq] at h2
      simp only [Bool.and_eq_true, Option.isNone_iff_eq_none] at h2
      obtain ⟨hui, hrest⟩ := h2
      cases i with
      | zero =>
        simp only [List.getElem?_cons_zero, Option.some.injEq] at hp
        subst hp
        exact ⟨q0, hq, by simp [roundEvents, hq, hui], by simp [roundAnswers, hq]⟩
      | succ i =>
        simp only [List.getElem?_cons_succ] at hp
        obtain ⟨q, hdec, hev, hans⟩ := ih (u + 1) (c + 1) i p hrest hp
        refine ⟨q, hdec, ?_, ?_⟩
        · rw [show u + (i + 1) = (u + 1) + i by omega]
          simp [roundEvents, hq, hev]
        · rw [show u + (i + 1) = (u + 1) + i by omega]
          simp [roundAnswers, hq, hans]

/-- Claim C4: for every Response whose FinishReason is not "interrupted"
(finished), the resolution loop returns the outcome ok with the response
unchanged and the instrumentation state exactly as it entered, so zero
Interaction calls and zero generation calls are performed.  This holds under
the precondition (made explicit by claim C9) that the askQuestion capability
is registered. -/
theorem c4_finished_response_unchanged (env : Env) (fuel : Nat) (st : St)
    (r : ModelResponse) (ask : Tool)
    (hask : env.tools "askQuestion" = some ask)
    (hr : r.finishReason ≠ "interrupted") :
    InterruptionHandler.handleResponse env fuel st r = Outcome.ok st r := by
  simp only [InterruptionHandler.handleResponse, hask]
  rw [ihLoop.eq_def]
  simp [hr]

/-- Witness for C4 at a concrete finished response. -/
theorem c4_witness :
    envHappy.tools "askQuestion" = some askTool ∧
    rDone.finishReason ≠ "interrupted" ∧
    InterruptionHandler.handleResponse envHappy 3 St.init rDone = Outcome.ok St.init rDone :=
  ⟨rfl, by decide,
    c4_finished_response_unchanged envHappy 3 St.init rDone askTool rfl (by decide)⟩

/-- Claim C6: when LookupTool("askQuestion") returns nil, both the
resolution loop and the completion loop fail immediately with the error
"askQuestion tool not found", leaving the instrumentation state untouched
(zero generation calls and zero Interaction calls). -/
theorem c6_capability_not_found (env : Env) (vp : String)
    (fuelO fuelI fuel : Nat) (st : St) (r : ModelResponse)
    (hnone : env.tools "askQuestion" = none) :
    InterruptionHandler.handleResponse env fuel st r =
      Outcome.err st askQuestionNotFound ∧
    ConversationLoopHandler.handleResponse env vp fuelO fuelI st r =
      Outcome.err st askQuestionNotFound ∧
    askQuestionNotFound.msg = "askQuestion tool not found" := by
  refine ⟨?_, ?_, rfl⟩ <;>
    simp [InterruptionHandler.handleResponse, ConversationLoopHandler.handleResponse, hnone]

/-- Witness for C6 with an unregistered tool environment. -/
theorem c6_witness :
    envNoTool.tools "askQuestion" = none ∧
    (InterruptionHandler.handleResponse envNoTool 3 St.init rTwo =
      Outcome.err St.init askQuestionNotFound ∧
    ConversationLoopHandler.handleResponse envNoTool "Is finished?" 3 3 St.init rTwo =
      Outcome.err St.init askQuestionNotFound ∧
    askQuestionNotFound.msg = "askQuestion tool not found") :=
  ⟨rfl, c6_capability_not_found envNoTool "Is finished?" 3 3 3 St.init rTwo rfl⟩

/-- Claim C9: the askQuestion lookup precedes any inspection of the
response, so even a finished response (FinishReason not "interrupted") that
would need zero Interaction calls fails with the lookup error when the
capability is absent; in particular the pass-through behaviour of C4 does
not hold without the registration precondition. -/
theorem c9_lookup_precedes_response_inspection (env : Env) (vp : String)
    (fuelO fuelI fuel : Nat) (st : St) (r : ModelResponse)
    (hnone : env.tools "askQuestion" = none)
    (_hfin : r.finishReason ≠ "interrupted") :
    InterruptionHandler.handleResponse env fuel st r =
      Outcome.err st askQuestionNotFound ∧
    ConversationLoopHandler.handleResponse env vp fuelO fuelI st r =
      Outcome.err st askQuestionNotFound ∧
    InterruptionHandler.handleResponse env fuel st r ≠ Outcome.ok st r := by
  refine ⟨?_, ?_, ?_⟩ <;>
    simp [InterruptionHandler.handleResponse, ConversationLoopHandler.handleResponse, hnone]

/-- Witness for C9 at a concrete finished response without the tool. -/
theorem c9_witness :
    envNoTool.tools "askQuestion" = none ∧
    rDone.finishReason ≠ "interrupted" ∧
    (InterruptionHandler.handleResponse envNoTool 2 St.init rDone =
      Outcome.err St.init askQuestionNotFound ∧
    ConversationLoopHandler.handleResponse envNoTool "Is finished?" 2 2 St.init rDone =
      Outcome.err St.init askQuestionNotFound ∧
    InterruptionHandler.handleResponse envNoTool 2 St.init rDone ≠
      Outcome.ok St.init rDone) :=
  ⟨rfl, by decide,
    c9_lookup_precedes_response_inspection envNoTool "Is finished?" 2 2 2 St.init rDone
      rfl (by decide)⟩

lemma cleanRun_head_ctx (env : Env) (u c : Nat) (p : InterruptPart)
    (l : List InterruptPart) (h : cleanRun env u c (p :: l) = true) :
    env.ctxDone c = false := by
  simp only [cleanRun, Bool.and_eq_true, Bool.not_eq_true'] at h
  exact h.1

/-- Claim C1: for a suspended response (FinishReason "interrupted") whose N
pending requests all decode and interact cleanly with no cancellation, the
resolution loop performs exactly N Interaction calls, one per pending
request in order (interaction i asks the question decoded from request i and
is the i-th interaction event of the round), and then issues a single
resumption generation call carrying the response's history, the askQuestion
tool and exactly N answers, answer i being built by askQuestion.Respond from
the Interaction result for its originating request i.  The run's trace is
the N interaction events, then that one generation event, then whatever
later rounds append. -/
theorem c1_n_interactions_then_single_resumption (env : Env) (ask : Tool)
    (fuel : Nat) (st : St) (r : ModelResponse)
    (hask : env.tools "askQuestion" = some ask)
    (hr : r.finishReason = "interrupted")
    (hc : env.ctxDone st.clock = false)
    (hclean : cleanRun env st.uiCalls st.clock r.interrupts = true) :
    (roundEvents env st.uiCalls r.interrupts).length = r.interrupts.length ∧
    (roundEvents env st.uiCalls r.interrupts).all Event.isInteract = true ∧
    (roundAnswers env ask st.uiCalls r.interrupts).length = r.interrupts.length ∧
    (∀ (i : Nat) (p : InterruptPart), r.interrupts[i]? = some p →
      ∃ q, getQuestionInput p.input = .ok q ∧
        (roundEvents env st.uiCalls r.interrupts)[i]? =
          some (.interact q (env.ui (st.uiCalls + i) q).1 none) ∧
        (roundAnswers env ask st.uiCalls r.interrupts)[i]? =
          some (ask.respond p (env.ui (st.uiCalls + i) q).1)) ∧
    (∃ rest, (InterruptionHandler.handleResponse env (fuel + 1) st r).st.trace =
      st.trace ++ roundEvents env st.uiCalls r.interrupts ++
        [Event.generate
          ⟨r.history, [ask], roundAnswers env ask st.uiCalls r.interrupts, none⟩
          (env.gen st.genCalls
            ⟨r.history, [ask], roundAnswers env ask st.uiCalls r.interrupts, none⟩)] ++
        rest) := by
  refine ⟨roundEvents_length env r.interrupts st.uiCalls st.clock hclean,
    roundEvents_all_interact env r.interrupts st.uiCalls,
    roundAnswers_length env ask r.interrupts st.uiCalls st.clock hclean,
    fun i p hp => round_pointwise env ask r.interrupts st.uiCalls st.clock i p hclean hp,
    ?_⟩
  have hres := resolveInterrupts_clean_all env ask st r.interrupts hclean
  cases hgen : env.gen st.genCalls
      ⟨r.history, [ask], roundAnswers env ask st.uiCalls r.interrupts, none⟩ with
  | error e =>
    refine ⟨[], ?_⟩
    have hstep : InterruptionHandler.handleResponse env (fuel + 1) st r =
        Outcome.err ((stAfter env st r.interrupts).recordGenerate
          ⟨r.history, [ask], roundAnswers env ask st.uiCalls r.interrupts, none⟩
          (.error e)) e := by
      simp [InterruptionHandler.handleResponse, hask, ihLoop, hr, hc, hres,
        stAfter_genCalls, hgen]
    rw [hstep]
    simp [Outcome.st, St.recordGenerate, stAfter, hgen]
  | ok r2 =>
    obtain ⟨ext, f1, _, _⟩ := ihLoop_ext env ask fuel
      ((stAfter env st r.interrupts).recordGenerate
        ⟨r.history, [ask], roundAnswers env ask st.uiCalls r.interrupts, none⟩
        (.ok r2)) r2
    have hstep : InterruptionHandler.handleResponse env (fuel + 1) st r =
        ihLoop env ask fuel
          ((stAfter env st r.interrupts).recordGenerate
            ⟨r.history, [ask], roundAnswers env ask st.uiCalls r.interrupts, none⟩
            (.ok r2)) r2 := by
      simp [InterruptionHandler.handleResponse, hask, ihLoop, hr, hc, hres,
        stAfter_genCalls, hgen]
    refine ⟨ext, ?_⟩
    rw [hstep, f1]
    simp [St.recordGenerate, stAfter, hgen]

/-- Witness for C1 on a suspended response with two pending requests. -/
theorem c1_witness :
    envHappy.tools "askQuestion" = some askTool ∧
    rTwo.finishReason = "interrupted" ∧
    envHappy.ctxDone St.init.clock = false ∧
    cleanRun envHappy St.init.uiCalls St.init.clock rTwo.interrupts = true ∧
    ((roundEvents envHappy St.init.uiCalls rTwo.interrupts).length =
        rTwo.interrupts.length ∧
     (roundEvents envHappy St.init.uiCalls rTwo.interrupts).all Event.isInteract = true ∧
     (roundAnswers envHappy askTool St.init.uiCalls rTwo.interrupts).length =
        rTwo.interrupts.length ∧
     (∀ (i : Nat) (p : InterruptPart), rTwo.interrupts[i]? = some p →
       ∃ q, getQuestionInput p.input = .ok q ∧
         (roundEvents envHappy St.init.uiCalls rTwo.interrupts)[i]? =
           some (.interact q (envHappy.ui (St.init.uiCalls + i) q).1 none) ∧
         (roundAnswers envHappy askTool St.init.uiCalls rTwo.interrupts)[i]? =
           some (askTool.respond p (envHappy.ui (St.init.uiCalls + i) q).1)) ∧
     (∃ rest, (InterruptionHandler.handleResponse envHappy (0 + 1) St.init rTwo).st.trace =
       St.init.trace ++ roundEvents envHappy St.init.uiCalls rTwo.interrupts ++
         [Event.generate
           ⟨rTwo.history, [askTool],
            roundAnswers envHappy askTool St.init.uiCalls rTwo.interrupts, none⟩
           (envHappy.gen St.init.genCalls
             ⟨rTwo.history, [askTool],
              roundAnswers envHappy askTool St.init.uiCalls rTwo.interrupts, none⟩)] ++
         rest)) :=
  ⟨rfl, rfl, rfl, rfl,
    c1_n_interactions_then_single_resumption envHappy askTool 0 St.init rTwo
      rfl rfl rfl rfl⟩

/-- Claim C7: when the context is already cancelled before any Interaction
call begins (j = 0), the resolution loop returns the context's error
(cancelledErr) with zero Interaction calls; more generally cancellation is
sampled before each individual Interaction call of a round, so if it
arrives after j clean interactions (j before the end of the round), the
loop aborts with cancelledErr having performed exactly j Interaction calls,
no generation call, and the j answers collected so far are discarded (the
trace gains only the j interaction events, never a resumption call). -/
theorem c7_cancellation_aborts_round (env : Env) (ask : Tool) (fuel j : Nat)
    (st : St) (r : ModelResponse)
    (hask : env.tools "askQuestion" = some ask)
    (hr : r.finishReason = "interrupted")
    (hj : j = 0 ∨ j < r.interrupts.length)
    (hclean : cleanRun env st.uiCalls st.clock (r.interrupts.take j) = true)
    (hcj : env.ctxDone (st.clock + j) = true) :
    InterruptionHandler.handleResponse env (fuel + 1) st r =
      Outcome.err (stAfter env st (r.interrupts.take j)) cancelledErr ∧
    (stAfter env st (r.interrupts.take j)).uiCalls = st.uiCalls + j ∧
    (stAfter env st (r.interrupts.take j)).genCalls = st.genCalls ∧
    (stAfter env st (r.interrupts.take j)).trace =
      st.trace ++ roundEvents env st.uiCalls (r.interrupts.take j) ∧
    (roundEvents env st.uiCalls (r.interrupts.take j)).all Event.isInteract = true ∧
    (roundEvents env st.uiCalls (r.interrupts.take j)).length = j := by
  have hlen : (r.interrupts.take j).length = j := by
    rcases hj with h0 | hlt
    · subst h0; simp
    · simp [List.length_take]; omega
  refine ⟨?_, by rw [stAfter_uiCalls, hlen], stAfter_genCalls env st _, rfl,
    roundEvents_all_interact env _ st.uiCalls, ?_⟩
  · cases j with
    | zero =>
      have hc0 : env.ctxDone st.clock = true := by simpa using hcj
      simp [InterruptionHandler.handleResponse, hask, ihLoop, hr, hc0, stAfter_nil,
        List.take_zero]
    | succ k =>
      have hlt : k + 1 < r.interrupts.length := by
        rcases hj with h0 | hlt
        · exact absurd h0 (by omega)
        · exact hlt
      have hc0 : env.ctxDone st.clock = false := by
        obtain ⟨p, l, hpl⟩ : ∃ p l, r.interrupts.take (k + 1) = p :: l := by
          cases htk : r.interrupts.take (k + 1) with
          | nil => rw [htk] at hlen; simp at hlen
          | cons p l => exact ⟨p, l, rfl⟩
        rw [hpl] at hclean
        exact cleanRun_head_ctx env st.uiCalls st.clock p l hclean
      have happ := resolveInterrupts_clean env ask (r.interrupts.take (k + 1))
        (r.interrupts.drop (k + 1)) st [] hclean
      have hdrop : r.interrupts.drop (k + 1) =
          r.interrupts[k + 1] :: r.interrupts.drop (k + 2) :=
        List.drop_eq_getElem_cons hlt
      have hcancel : resolveInterrupts env ask (stAfter env st (r.interrupts.take (k + 1)))
          (r.interrupts.drop (k + 1))
          ([] ++ roundAnswers env ask st.uiCalls (r.interrupts.take (k + 1))) =
          .error (stAfter env st (r.interrupts.take (k + 1)), cancelledErr) := by
        rw [hdrop]
        simp [resolveInterrupts, stAfter_clock, hlen, hcj]
      have hresolve : resolveInterrupts env ask st r.interrupts [] =
          .error (stAfter env st (r.interrupts.take (k + 1)), cancelledErr) := by
        conv_lhs => rw [show r.interrupts =
          r.interrupts.take (k + 1) ++ r.interrupts.drop (k + 1) from
          (List.take_append_drop (k + 1) r.interrupts).symm]
        rw [happ, hcancel]
      simp [InterruptionHandler.handleResponse, hask, ihLoop, hr, hc0, hresolve]
  · exact roundEvents_length env _ st.uiCalls st.clock hclean |>.trans hlen

/-- Witness for C7: cancellation arriving after the first of two
interactions aborts with one Interaction call and no generation call. -/
theorem c7_witness :
    envCancelAt1.tools "askQuestion" = some askTool ∧
    rTwo.finishReason = "interrupted" ∧
    (1 = 0 ∨ 1 < rTwo.interrupts.length) ∧
    cleanRun envCancelAt1 St.init.uiCalls St.init.clock (rTwo.interrupts.take 1) = true ∧
    envCancelAt1.ctxDone (St.init.clock + 1) = true ∧
    (InterruptionHandler.handleResponse envCancelAt1 (0 + 1) St.init rTwo =
      Outcome.err (stAfter envCancelAt1 St.init (rTwo.interrupts.take 1)) cancelledErr ∧
    (stAfter envCancelAt1 St.init (rTwo.interrupts.take 1)).uiCalls =
      St.init.uiCalls + 1 ∧
    (stAfter envCancelAt1 St.init (rTwo.interrupts.take 1)).genCalls =
      St.init.genCalls ∧
    (stAfter envCancelAt1 St.init (rTwo.interrupts.take 1)).trace =
      St.init.trace ++ roundEvents envCancelAt1 St.init.uiCalls (rTwo.interrupts.take 1) ∧
    (roundEvents envCancelAt1 St.init.uiCalls (rTwo.interrupts.take 1)).all
      Event.isInteract = true ∧
    (roundEvents envCancelAt1 St.init.uiCalls (rTwo.interrupts.take 1)).length = 1) :=
  ⟨rfl, rfl, Or.inr (by decide), rfl, rfl,
    c7_cancellation_aborts_round envCancelAt1 askTool 0 1 St.init rTwo
      rfl rfl (Or.inr (by decide)) rfl rfl⟩

/-- Claim C8: if the i-th pending request's payload fails to decode
(getQuestionInput returns an error) after i cleanly resolved requests, the
resolution loop aborts the whole operation and surfaces that decode error:
no Interaction call is made for the malformed request (exactly i
interaction calls occurred) and no resumption generation call is issued. -/
theorem c8_malformed_request_aborts (env : Env) (ask : Tool) (fuel i : Nat)
    (st : St) (r : ModelResponse) (e : GoError)
    (hask : env.tools "askQuestion" = some ask)
    (hr : r.finishReason = "interrupted")
    (hi : i < r.interrupts.length)
    (hclean : cleanRun env st.uiCalls st.clock (r.interrupts.take i) = true)
    (hci : env.ctxDone (st.clock + i) = false)
    (hdec : getQuestionInput (r.interrupts[i].input) = .error e) :
    InterruptionHandler.handleResponse env (fuel + 1) st r =
      Outcome.err (stAfter env st (r.interrupts.take i)) e ∧
    (stAfter env st (r.interrupts.take i)).uiCalls = st.uiCalls + i ∧
    (stAfter env st (r.interrupts.take i)).genCalls = st.genCalls ∧
    (stAfter env st (r.interrupts.take i)).trace =
      st.trace ++ roundEvents env st.uiCalls (r.interrupts.take i) ∧
    (roundEvents env st.uiCalls (r.interrupts.take i)).all Event.isInteract = true ∧
    (roundEvents env st.uiCalls (r.interrupts.take i)).length = i := by
  have hlen : (r.interrupts.take i).length = i := by
    simp [List.length_take]; omega
  refine ⟨?_, by rw [stAfter_uiCalls, hlen], stAfter_genCalls env st _, rfl,
    roundEvents_all_interact env _ st.uiCalls,
    roundEvents_length env _ st.uiCalls st.clock hclean |>.trans hlen⟩
  have hc0 : env.ctxDone st.clock = false := by
    cases i with
    | zero => simpa using hci
    | succ k =>
      obtain ⟨p, l, hpl⟩ : ∃ p l, r.interrupts.take (k + 1) = p :: l := by
        cases htk : r.interrupts.take (k + 1) with
        | nil => rw [htk] at hlen; simp at hlen
        | cons p l => exact ⟨p, l, rfl⟩
      rw [hpl] at hclean
      exact cleanRun_head_ctx env st.uiCalls st.clock p l hclean
  have happ := resolveInterrupts_clean env ask (r.interrupts.take i)
    (r.interrupts.drop i) st [] hclean
  have hdrop : r.interrupts.drop i = r.interrupts[i] :: r.interrupts.drop (i + 1) :=
    List.drop_eq_getElem_cons hi
  have hfail : resolveInterrupts env ask (stAfter env st (r.interrupts.take i))
      (r.interrupts.drop i)
      ([] ++ roundAnswers env ask st.uiCalls (r.interrupts.take i)) =
      .error (stAfter env st (r.interrupts.take i), e) := by
    rw [hdrop]
    simp [resolveInterrupts, stAfter_clock, hlen, hci, hdec]
  have hresolve : resolveInterrupts env ask st r.interrupts [] =
      .error (stAfter env st (r.interrupts.take i), e) := by
    conv_lhs => rw [show r.interrupts =
      r.interrupts.take i ++ r.interrupts.drop i from
      (List.take_append_drop i r.interrupts).symm]
    rw [happ, hfail]
  simp [InterruptionHandler.handleResponse, hask, ihLoop, hr, hc0, hresolve]

/-- Witness for C8: the second pending request's payload is a bare string,
so the loop aborts with the "unexpected input type" error after exactly one
Interaction call and no generation call. -/
theorem c8_witness :
    envHappy.tools "askQuestion" = some askTool ∧
    rBad.finishReason = "interrupted" ∧
    1 < rBad.interrupts.length ∧
    cleanRun envHappy St.init.uiCalls St.init.clock (rBad.interrupts.take 1) = true ∧
    envHappy.ctxDone (St.init.clock + 1) = false ∧
    getQuestionInput ((rBad.interrupts.get ⟨1, by decide⟩).input) =
      .error (badInputType (.str "oops")) ∧
    (InterruptionHandler.handleResponse envHappy (0 + 1) St.init rBad =
      Outcome.err (stAfter envHappy St.init (rBad.interrupts.take 1))
        (badInputType (.str "oops")) ∧
    (stAfter envHappy St.init (rBad.interrupts.take 1)).uiCalls =
      St.init.uiCalls + 1 ∧
    (stAfter envHappy St.init (rBad.interrupts.take 1)).genCalls = St.init.genCalls ∧
    (stAfter envHappy St.init (rBad.interrupts.take 1)).trace =
      St.init.trace ++ roundEvents envHappy St.init.uiCalls (rBad.interrupts.take 1) ∧
    (roundEvents envHappy St.init.uiCalls (rBad.interrupts.take 1)).all
      Event.isInteract = true ∧
    (roundEvents envHappy St.init.uiCalls (rBad.interrupts.take 1)).length = 1) :=
  ⟨rfl, rfl, by decide, rfl, rfl, rfl,
    c8_malformed_request_aborts envHappy askTool 0 1 St.init rBad
      (badInputType (.str "oops")) rfl rfl (by decide) rfl rfl rfl⟩

/-- Claim C2: in the completion loop, when the verdict of the boolean
evaluation is false (not finished), the loop makes exactly one new
generation call: its messages are the full history of the just-resolved
response, its tools make the askQuestion capability available, and its
prompt is the synthetic user message built from the text of the
just-resolved response — namely both return values of
UserInteraction(QuestionInput{Question: response.Text()}) handed to
WithPrompt.  The trace shows the verdict event, the seeding interaction and
that single generation call, in that order. -/
theorem c2_seeded_generation_call (env : Env) (ask : Tool) (vp : String)
    (fuelO fuelI : Nat) (st st1 : St) (r r1 : ModelResponse)
    (hask : env.tools "askQuestion" = some ask)
    (hih : InterruptionHandler.handleResponse env fuelI st r = Outcome.ok st1 r1)
    (hb : env.genBool st1.boolCalls vp r1.history = .ok false) :
    ∃ rest, (ConversationLoopHandler.handleResponse env vp (fuelO + 1) fuelI st r).st.trace =
      st1.trace ++
        [Event.evalBool vp r1.history (.ok false),
         Event.interact ⟨r1.text, []⟩ (env.ui st1.uiCalls ⟨r1.text, []⟩).1
           (env.ui st1.uiCalls ⟨r1.text, []⟩).2,
         Event.generate
           ⟨r1.history, [ask], [],
            some ⟨(env.ui st1.uiCalls ⟨r1.text, []⟩).1,
                  (env.ui st1.uiCalls ⟨r1.text, []⟩).2⟩⟩
           (env.gen st1.genCalls
             ⟨r1.history, [ask], [],
              some ⟨(env.ui st1.uiCalls ⟨r1.text, []⟩).1,
                    (env.ui st1.uiCalls ⟨r1.text, []⟩).2⟩⟩)] ++
      rest := by
  cases hgen : env.gen st1.genCalls
      ⟨r1.history, [ask], [], some ⟨(env.ui st1.uiCalls ⟨r1.text, []⟩).1,
        (env.ui st1.uiCalls ⟨r1.text, []⟩).2⟩⟩ with
  | error e =>
    refine ⟨[], ?_⟩
    simp [ConversationLoopHandler.handleResponse, hask, clLoop, hih, hb, hgen,
      Outcome.st, St.recordBool, St.recordInteract, St.recordGenerate]
  | ok r2 =>
    obtain ⟨ext, f1⟩ := clLoop_ext env ask vp fuelI fuelO
      ⟨st1.uiCalls + 1, st1.genCalls + 1, st1.boolCalls + 1,
       st1.trace ++ [.evalBool vp r1.history (.ok false),
         .interact ⟨r1.text, []⟩ (env.ui st1.uiCalls ⟨r1.text, []⟩).1
           (env.ui st1.uiCalls ⟨r1.text, []⟩).2,
         .generate ⟨r1.history, [ask], [], some ⟨(env.ui st1.uiCalls ⟨r1.text, []⟩).1,
           (env.ui st1.uiCalls ⟨r1.text, []⟩).2⟩⟩ (.ok r2)]⟩ r2
    have hstep : ConversationLoopHandler.handleResponse env vp (fuelO + 1) fuelI st r =
        clLoop env ask vp fuelI fuelO
          ⟨st1.uiCalls + 1, st1.genCalls + 1, st1.boolCalls + 1,
           st1.trace ++ [.evalBool vp r1.history (.ok false),
             .interact ⟨r1.text, []⟩ (env.ui st1.uiCalls ⟨r1.text, []⟩).1
               (env.ui st1.uiCalls ⟨r1.text, []⟩).2,
             .generate ⟨r1.history, [ask], [], some ⟨(env.ui st1.uiCalls ⟨r1.text, []⟩).1,
               (env.ui st1.uiCalls ⟨r1.text, []⟩).2⟩⟩ (.ok r2)]⟩ r2 := by
      simp [ConversationLoopHandler.handleResponse, hask, clLoop, hih, hb, hgen,
        St.recordBool, St.recordInteract, St.recordGenerate]
    refine ⟨ext, ?_⟩
    rw [hstep, f1]

/-- Witness for C2: completion verdict false after a finished response. -/
theorem c2_witness :
    envHappy.tools "askQuestion" = some askTool ∧
    InterruptionHandler.handleResponse envHappy 1 St.init rDone = Outcome.ok St.init rDone ∧
    envHappy.genBool St.init.boolCalls "Is finished?" rDone.history = .ok false ∧
    (∃ rest, (ConversationLoopHandler.handleResponse envHappy "Is finished?" (0 + 1) 1
        St.init rDone).st.trace =
      St.init.trace ++
        [Event.evalBool "Is finished?" rDone.history (.ok false),
         Event.interact ⟨rDone.text, []⟩ (envHappy.ui St.init.uiCalls ⟨rDone.text, []⟩).1
           (envHappy.ui St.init.uiCalls ⟨rDone.text, []⟩).2,
         Event.generate
           ⟨rDone.history, [askTool], [],
            some ⟨(envHappy.ui St.init.uiCalls ⟨rDone.text, []⟩).1,
                  (envHappy.ui St.init.uiCalls ⟨rDone.text, []⟩).2⟩⟩
           (envHappy.gen St.init.genCalls
             ⟨rDone.history, [askTool], [],
              some ⟨(envHappy.ui St.init.uiCalls ⟨rDone.text, []⟩).1,
                    (envHappy.ui St.init.uiCalls ⟨rDone.text, []⟩).2⟩⟩)] ++
      rest) :=
  ⟨rfl, rfl, rfl,
    c2_seeded_generation_call envHappy askTool "Is finished?" 0 1 St.init St.init
      rDone rDone rfl rfl rfl⟩

lemma countP_zero_of_clean_ext (ext : List Event)
    (h : ext.all (fun e => !e.isEvalBool && !e.isSeededGenerate) = true) :
    ext.countP Event.isEvalBool = 0 ∧ ext.countP Event.isSeededGenerate = 0 := by
  rw [List.all_eq_true] at h
  constructor <;> rw [List.countP_eq_zero] <;> intro a ha <;>
    have hx := h a ha <;> simp only [Bool.and_eq_true, Bool.not_eq_true'] at hx
  · simp [hx.1]
  · simp [hx.2]

lemma clLoop_count (env : Env) (ask : Tool) (vp : String) (fuelI : Nat) :
    ∀ (fuel : Nat) (st : St) (r : ModelResponse) (stF : St) (rF : ModelResponse),
    clLoop env ask vp fuelI fuel st r = Outcome.ok stF rF →
    stF.trace.countP Event.isEvalBool + st.trace.countP Event.isSeededGenerate =
      stF.trace.countP Event.isSeededGenerate + st.trace.countP Event.isEvalBool + 1 := by
  intro fuel
  induction fuel with
  | zero => intro st r stF rF h; simp [clLoop] at h
  | succ fuel ih =>
    intro st r stF rF h
    obtain ⟨ext0, g1, g2, _⟩ := handleResponse_ext env fuelI st r
    cases hih : InterruptionHandler.handleResponse env fuelI st r with
    | err st1 e => simp [clLoop, hih] at h
    | spent st1 => simp [clLoop, hih] at h
    | ok st1 r1 =>
      rw [hih] at g1
      simp only [Outcome.st] at g1
      obtain ⟨hz1, hz2⟩ := countP_zero_of_clean_ext ext0 g2
      have hb1 : st1.trace.countP Event.isEvalBool = st.trace.countP Event.isEvalBool := by
        simp [g1, List.countP_append, hz1]
      have hb2 : st1.trace.countP Event.isSeededGenerate =
          st.trace.countP Event.isSeededGenerate := by
        simp [g1, List.countP_append, hz2]
      cases hbv : env.genBool st1.boolCalls vp r1.history with
      | error e => simp [clLoop, hih, hbv] at h
      | ok b =>
        cases b with
        | true =>
          have hstep : clLoop env ask vp fuelI (fuel + 1) st r =
              Outcome.ok (st1.recordBool vp r1.history (.ok true)) r1 := by
            simp [clLoop, hih, hbv, St.recordBool]
          rw [hstep] at h
          injection h with h1 h2
          have hcB : (st1.recordBool vp r1.history (.ok true)).trace.countP
              Event.isEvalBool = st1.trace.countP Event.isEvalBool + 1 := by
            simp [St.recordBool, Event.isEvalBool]
          have hcS : (st1.recordBool vp r1.history (.ok true)).trace.countP
              Event.isSeededGenerate = st1.trace.countP Event.isSeededGenerate := by
            simp [St.recordBool, Event.isSeededGenerate]
          rw [← h1, hcB, hcS]
          omega
        | false =>
          cases hgen : env.gen st1.genCalls
              ⟨r1.history, [ask], [], some ⟨(env.ui st1.uiCalls ⟨r1.text, []⟩).1,
                (env.ui st1.uiCalls ⟨r1.text, []⟩).2⟩⟩ with
          | error e =>
            simp [clLoop, hih, hbv, hgen, St.recordBool, St.recordInteract,
              St.recordGenerate] at h
          | ok r2 =>
            have hstep : clLoop env ask vp fuelI (fuel + 1) st r =
                clLoop env ask vp fuelI fuel
                  ⟨st1.uiCalls + 1, st1.genCalls + 1, st1.boolCalls + 1,
                   st1.trace ++ [.evalBool vp r1.history (.ok false),
                     .interact ⟨r1.text, []⟩ (env.ui st1.uiCalls ⟨r1.text, []⟩).1
                       (env.ui st1.uiCalls ⟨r1.text, []⟩).2,
                     .generate ⟨r1.history, [ask], [],
                       some ⟨(env.ui st1.uiCalls ⟨r1.text, []⟩).1,
                         (env.ui st1.uiCalls ⟨r1.text, []⟩).2⟩⟩ (.ok r2)]⟩ r2 := by
              simp [clLoop, hih, hbv, hgen, St.recordBool, St.recordInteract,
                St.recordGenerate]
            rw [hstep] at h
            have hrec := ih _ r2 stF rF h
            have hcB : (st1.trace ++ [Event.evalBool vp r1.history (.ok false),
                Event.interact ⟨r1.text, []⟩ (env.ui st1.uiCalls ⟨r1.text, []⟩).1
                  (env.ui st1.uiCalls ⟨r1.text, []⟩).2,
                Event.generate ⟨r1.history, [ask], [],
                  some ⟨(env.ui st1.uiCalls ⟨r1.text, []⟩).1,
                    (env.ui st1.uiCalls ⟨r1.text, []⟩).2⟩⟩ (.ok r2)]).countP
                Event.isEvalBool = st1.trace.countP Event.isEvalBool + 1 := by
              simp [Event.isEvalBool, List.countP_cons, Event.isInteract,
                Event.isSeededGenerate]
            have hcS : (st1.trace ++ [Event.evalBool vp r1.history (.ok false),
                Event.interact ⟨r1.text, []⟩ (env.ui st1.uiCalls ⟨r1.text, []⟩).1
                  (env.ui st1.uiCalls ⟨r1.text, []⟩).2,
                Event.generate ⟨r1.history, [ask], [],
                  some ⟨(env.ui st1.uiCalls ⟨r1.text, []⟩).1,
                    (env.ui st1.uiCalls ⟨r1.text, []⟩).2⟩⟩ (.ok r2)]).countP
                Event.isSeededGenerate = st1.trace.countP Event.isSeededGenerate + 1 := by
              simp [Event.isSeededGenerate, List.countP_cons]
            rw [hcB, hcS] at hrec
            omega

/-- Claim C5: per fully-resolved response the completion loop performs
exactly one boolean evaluation, and issues a further generation call if and
only if that evaluation is false.  Part one: a true verdict ends the loop,
returning the just-resolved response as-is with only the one evalBool event
recorded (in particular no further generation call).  Part two: a false
verdict makes the trace continue past the single evalBool event with at
least one loop-issued (seeded) generation call.  Part three: over any whole
error-free run from the initial state, the number of boolean evaluations
equals the number of loop-issued generation calls plus one — one evaluation
per resolved response, one further generation call per false verdict. -/
theorem c5_verdict_gates_generation :
    (∀ (env : Env) (ask : Tool) (vp : String) (fuelO fuelI : Nat) (st st1 : St)
       (r r1 : ModelResponse),
      env.tools "askQuestion" = some ask →
      InterruptionHandler.handleResponse env fuelI st r = Outcome.ok st1 r1 →
      env.genBool st1.boolCalls vp r1.history = .ok true →
      ConversationLoopHandler.handleResponse env vp (fuelO + 1) fuelI st r =
        Outcome.ok (st1.recordBool vp r1.history (.ok true)) r1) ∧
    (∀ (env : Env) (ask : Tool) (vp : String) (fuelO fuelI : Nat) (st st1 : St)
       (r r1 : ModelResponse),
      env.tools "askQuestion" = some ask →
      InterruptionHandler.handleResponse env fuelI st r = Outcome.ok st1 r1 →
      env.genBool st1.boolCalls vp r1.history = .ok false →
      ∃ rest, (ConversationLoopHandler.handleResponse env vp (fuelO + 1) fuelI st r).st.trace =
        st1.trace ++ Event.evalBool vp r1.history (.ok false) :: rest ∧
        1 ≤ rest.countP Event.isSeededGenerate) ∧
    (∀ (env : Env) (vp : String) (fuelO fuelI : Nat) (r : ModelResponse)
       (stF : St) (rF : ModelResponse),
      ConversationLoopHandler.handleResponse env vp fuelO fuelI St.init r =
        Outcome.ok stF rF →
      stF.trace.countP Event.isEvalBool = stF.trace.countP Event.isSeededGenerate + 1) := by
  refine ⟨?_, ?_, ?_⟩
  · intro env ask vp fuelO fuelI st st1 r r1 hask hih hb
    simp [ConversationLoopHandler.handleResponse, hask, clLoop, hih, hb, St.recordBool]
  · intro env ask vp fuelO fuelI st st1 r r1 hask hih hb
    cases hgen : env.gen st1.genCalls
        ⟨r1.history, [ask], [], some ⟨(env.ui st1.uiCalls ⟨r1.text, []⟩).1,
          (env.ui st1.uiCalls ⟨r1.text, []⟩).2⟩⟩ with
    | error e =>
      refine ⟨[Event.interact ⟨r1.text, []⟩ (env.ui st1.uiCalls ⟨r1.text, []⟩).1
          (env.ui st1.uiCalls ⟨r1.text, []⟩).2,
        Event.generate ⟨r1.history, [ask], [],
          some ⟨(env.ui st1.uiCalls ⟨r1.text, []⟩).1,
            (env.ui st1.uiCalls ⟨r1.text, []⟩).2⟩⟩ (.error e)], ?_, ?_⟩
      · simp [ConversationLoopHandler.handleResponse, hask, clLoop, hih, hb, hgen,
          Outcome.st, St.recordBool, St.recordInteract, St.recordGenerate]
      · simp [List.countP_cons, Event.isSeededGenerate, Event.isInteract]
    | ok r2 =>
      obtain ⟨ext, f1⟩ := clLoop_ext env ask vp fuelI fuelO
        ⟨st1.uiCalls + 1, st1.genCalls + 1, st1.boolCalls + 1,
         st1.trace ++ [.evalBool vp r1.history (.ok false),
           .interact ⟨r1.text, []⟩ (env.ui st1.uiCalls ⟨r1.text, []⟩).1
             (env.ui st1.uiCalls ⟨r1.text, []⟩).2,
           .generate ⟨r1.history, [ask], [], some ⟨(env.ui st1.uiCalls ⟨r1.text, []⟩).1,
             (env.ui st1.uiCalls ⟨r1.text, []⟩).2⟩⟩ (.ok r2)]⟩ r2
      have hstep : ConversationLoopHandler.handleResponse env vp (fuelO + 1) fuelI st r =
          clLoop env ask vp fuelI fuelO
            ⟨st1.uiCalls + 1, st1.genCalls + 1, st1.boolCalls + 1,
             st1.trace ++ [.evalBool vp r1.history (.ok false),
               .interact ⟨r1.text, []⟩ (env.ui st1.uiCalls ⟨r1.text, []⟩).1
                 (env.ui st1.uiCalls ⟨r1.text, []⟩).2,
               .generate ⟨r1.history, [ask], [], some ⟨(env.ui st1.uiCalls ⟨r1.text, []⟩).1,
                 (env.ui st1.uiCalls ⟨r1.text, []⟩).2⟩⟩ (.ok r2)]⟩ r2 := by
        simp [ConversationLoopHandler.handleResponse, hask, clLoop, hih, hb, hgen,
          St.recordBool, St.recordInteract, St.recordGenerate]
      refine ⟨[Event.interact ⟨r1.text, []⟩ (env.ui st1.uiCalls ⟨r1.text, []⟩).1
          (env.ui st1.uiCalls ⟨r1.text, []⟩).2,
        Event.generate ⟨r1.history, [ask], [],
          some ⟨(env.ui st1.uiCalls ⟨r1.text, []⟩).1,
            (env.ui st1.uiCalls ⟨r1.text, []⟩).2⟩⟩ (.ok r2)] ++ ext, ?_, ?_⟩
      · rw [hstep, f1]
        simp
      · simp [List.countP_append, List.countP_cons, Event.isSeededGenerate,
          Event.isInteract]
  · intro env vp fuelO fuelI r stF rF h
    cases hlk : env.tools "askQuestion" with
    | none => simp [ConversationLoopHandler.handleResponse, hlk] at h
    | some ask =>
      simp only [ConversationLoopHandler.handleResponse, hlk] at h
      have := clLoop_count env ask vp fuelI fuelO St.init r stF rF h
      simpa [St.init] using this

/-- Witness for C5 instantiating all three parts on concrete runs. -/
theorem c5_witness :
    (ConversationLoopHandler.handleResponse envDoneNow "Is finished?" (0 + 1) 1
        St.init rDone =
      Outcome.ok (St.init.recordBool "Is finished?" rDone.history (.ok true)) rDone) ∧
    (∃ rest, (ConversationLoopHandler.handleResponse envHappy "Is finished?" (0 + 1) 1
        St.init rDone).st.trace =
      St.init.trace ++ Event.evalBool "Is finished?" rDone.history (.ok false) :: rest ∧
      1 ≤ rest.countP Event.isSeededGenerate) ∧
    (ConversationLoopHandler.handleResponse envHappy "Is finished?" 2 1 St.init rDone =
      Outcome.ok c5RunSt rDone ∧
     c5RunSt.trace.countP Event.isEvalBool =
       c5RunSt.trace.countP Event.isSeededGenerate + 1) :=
  ⟨c5_verdict_gates_generation.1 envDoneNow askTool "Is finished?" 0 1 St.init St.init
      rDone rDone rfl rfl rfl,
   c5_verdict_gates_generation.2.1 envHappy askTool "Is finished?" 0 1 St.init St.init
      rDone rDone rfl rfl rfl,
   rfl,
   c5_verdict_gates_generation.2.2 envHappy "Is finished?" 2 1 rDone c5RunSt rDone rfl⟩

/-- Claim C3 assessment: evaluation of the code at a failing input.  In the
completion loop the direct UserInteraction call is made inside
WithPrompt(...), so its error return value is bound to WithPrompt's variadic
format argument and never checked.  Here every interaction fails with
uiFailure, yet the loop still issues a further generation call — whose
prompt carries the error value — and terminates with ok instead of
returning the interaction error: the spec's propagation policy is violated
by the code at this call site. -/
theorem c3_completion_loop_swallows_interaction_error :
    (envUIErr.ui 0 ⟨rNext.text, []⟩).2 = some uiFailure ∧
    ConversationLoopHandler.handleResponse envUIErr "Is finished?" 2 1 St.init rNext =
      Outcome.ok c3RunSt rNext ∧
    c3RunSt.trace.countP Event.isSeededGenerate = 1 ∧
    c3RunSt.trace[1]? = some (.interact ⟨"Final Answer", []⟩ "" (some uiFailure)) ∧
    c3RunSt.trace[2]? =
      some (.generate ⟨[msg1], [askTool], [], some ⟨"", some uiFailure⟩⟩ (.ok rNext)) :=
  ⟨rfl, rfl, rfl, rfl, rfl⟩

/-- Counterexample for C10 as stated: a map[string]any whose values are all
JSON-marshalable on which getQuestionInput nevertheless fails (the value
under "question" is a number, so json.Unmarshal into the string field
errors). -/
theorem c10_counterexample :
    GoValue.isMap (.map (.cons "question" (.num 42) .nil)) = true ∧
    GoValue.marshalable (.map (.cons "question" (.num 42) .nil)) = true ∧
    getQuestionInput (.map (.cons "question" (.num 42) .nil)) =
      .error unmarshalFailure :=
  ⟨rfl, rfl, rfl⟩

/-- Amended C10: getQuestionInput succeeds on a map[string]any exactly when
marshalling succeeds and both fields decode (missing question or choices
keys decode to the zero values: empty question, nil choices — so a
structurally present but incomplete payload is not rejected); it errors on
any non-map input, on marshal failure, and on a field-type mismatch during
unmarshalling. -/
theorem c10_decode_characterization :
    (getQuestionInput (.map .nil) = .ok ⟨"", []⟩) ∧
    (∀ fs : GoMap, fs.marshalable = true →
      fs.lookupField "question" = none → fs.lookupField "choices" = none →
      getQuestionInput (.map fs) = .ok ⟨"", []⟩) ∧
    (∀ v : GoValue, v.isMap = false →
      getQuestionInput v = .error (badInputType v)) ∧
    (∀ fs : GoMap, fs.marshalable = false →
      getQuestionInput (.map fs) = .error marshalFailure) ∧
    (∀ (fs : GoMap) (q : String) (cs : List String), fs.marshalable = true →
      decodeStringField (fs.lookupField "question") = .ok q →
      decodeChoicesField (fs.lookupField "choices") = .ok cs →
      getQuestionInput (.map fs) = .ok ⟨q, cs⟩) := by
  refine ⟨rfl, ?_, ?_, ?_, ?_⟩
  · intro fs h1 h2 h3
    simp [getQuestionInput, h1, h2, h3, decodeStringField, decodeChoicesField]
  · intro v hv
    cases v <;> simp_all [GoValue.isMap, getQuestionInput]
  · intro fs h
    simp [getQuestionInput, h]
  · intro fs q cs h1 h2 h3
    simp [getQuestionInput, h1, h2, h3]

/-- Witness for the amended C10 at a map missing both expected keys. -/
theorem c10_witness :
    GoMap.marshalable (.cons "other" (.str "x") .nil) = true ∧
    GoMap.lookupField (.cons "other" (.str "x") .nil) "question" = none ∧
    GoMap.lookupField (.cons "other" (.str "x") .nil) "choices" = none ∧
    getQuestionInput (.map (.cons "other" (.str "x") .nil)) = .ok ⟨"", []⟩ :=
  ⟨rfl, rfl, rfl,
    c10_decode_characterization.2.1 (.cons "other" (.str "x") .nil) rfl rfl rfl⟩
